import Mathlib

/-!
Verification of the task service in src/task.go: an in-memory task
registry (a mutex-guarded map from integer id to task plus an id
counter), four HTTP handlers (list, create, update, delete) and a
startup completion pipeline.  Handlers run under the registry lock, so
each is embedded as a pure function from registry state (and the
decoded request) to a status code, an optional response body and the
next registry state.  Machine integers are modelled as unbounded `Int`
(the counter only ever increments by one, far from overflow) and
`time.Time` as an abstract `Nat` timestamp.
-/

set_option autoImplicit false

namespace TaskService

/-- Task record (src/task.go lines 13-18): id, title, completed flag and
creation timestamp.  `time.Time` is modelled as a `Nat` timestamp. -/
structure Task where
  id : Int
  title : String
  completed : Bool
  createdAt : Nat
deriving Repr, DecidableEq

/-- The Go map `map[int]Task` is modelled as an association list from
id to task.  Go map iteration order is unspecified; claims about the
contents are therefore stated up to set membership and length. -/
abbrev TaskMap := List (Int × Task)

/-- Go map read `m[k]`: the value stored under key `k`, if any. -/
def TaskMap.lookup (k : Int) : TaskMap → Option Task
  | [] => none
  | (k', v) :: rest => if k' = k then some v else TaskMap.lookup k rest

/-- Go map write `m[k] = v`: replace the entry for `k` when present,
otherwise add a new entry. -/
def TaskMap.insert (m : TaskMap) (k : Int) (v : Task) : TaskMap :=
  match m with
  | [] => [(k, v)]
  | (k', v') :: rest =>
      if k' = k then (k, v) :: rest else (k', v') :: TaskMap.insert rest k v

/-- Go `delete(m, k)`: remove the entry for `k`. -/
def TaskMap.erase (m : TaskMap) (k : Int) : TaskMap :=
  m.filter (fun p => p.1 ≠ k)

/-- The values of the map, as ranged over by `for _, task := range m`. -/
def TaskMap.values (m : TaskMap) : List Task :=
  m.map (fun p => p.2)

/-- The keys of the map. -/
def TaskMap.keys (m : TaskMap) : List Int :=
  m.map (fun p => p.1)

/-- The shared mutable state (src/task.go lines 21-26): the task map
`taskDB.tasks` and the id counter `taskIDCounter`.  Handlers access it
under the mutex, so each handler is a function on this state. -/
structure RegistryState where
  tasks : TaskMap
  counter : Int
deriving Repr, DecidableEq

/-- The state at process start: empty map, `taskIDCounter = 1`
(src/task.go lines 21-26). -/
def initialState : RegistryState := { tasks := [], counter := 1 }

/-- createTaskHandler, locked section (src/task.go lines 58-66): the
decoded request body `req` keeps its title and completed flag, but its
id is overwritten with the counter and its created_at with the current
time; the record is stored under that id, the counter is incremented
and the stored record is returned (status 201).  There is no failure
path after decoding. -/
def createTask (s : RegistryState) (req : Task) (now : Nat) : Task × RegistryState :=
  let newTask : Task := { req with id := s.counter, createdAt := now }
  (newTask,
   { tasks := TaskMap.insert s.tasks s.counter newTask,
     counter := s.counter + 1 })

/-- updateTaskHandler, locked section (src/task.go lines 77-92): look
up the decoded id; if absent respond 404 leaving the state alone;
otherwise overwrite the stored record's title and completed fields
with the request's, store it back under the same id and respond 200
with the updated record. -/
def updateTaskHandler (s : RegistryState) (req : Task) :
    Nat × Option Task × RegistryState :=
  match TaskMap.lookup req.id s.tasks with
  | none => (404, none, s)
  | some task =>
    let task' : Task := { task with title := req.title, completed := req.completed }
    (200, some task', { s with tasks := TaskMap.insert s.tasks req.id task' })

/-- Models the call `fmt.Sscanf(taskID, "%d")` at src/task.go line 107.
Go's `Sscanf` consumes one operand argument per format verb; this call
site passes the format string with one `%d` verb but no operand to scan
into, so `doScanf` stops at once with the error `too few operands for
format` and `n = 0` items processed, whatever the input string holds.
The call therefore always yields `id = 0` and a non-nil error. -/
def sscanfNoOperands (_input : String) : Int × Option String :=
  (0, some "too few operands for format %d")

/-- deleteTaskHandler (src/task.go lines 96-123): read the `id` query
parameter (Go's `Query().Get` yields `""` when absent); respond 400 if
empty; parse it with `fmt.Sscanf(taskID, "%d")`; respond 400 on a
parse error; respond 404 if no task has the parsed id; otherwise
remove that entry and respond 204.  Returns the status code and the
next state. -/
def deleteTaskHandler (s : RegistryState) (taskID : String) : Nat × RegistryState :=
  if taskID = "" then (400, s)
  else
    match sscanfNoOperands taskID with
    | (_, some _) => (400, s)
    | (id, none) =>
      match TaskMap.lookup id s.tasks with
      | none => (404, s)
      | some _ => (204, { s with tasks := TaskMap.erase s.tasks id })

/-- `var tasks []Task` starts as a nil slice and `append` turns nil
into a one-element slice; Go distinguishes the nil slice from an empty
one, so a slice is modelled as `Option (List Task)` with `none` for
nil. -/
def goAppend (slice : Option (List Task)) (t : Task) : Option (List Task) :=
  match slice with
  | none => some [t]
  | some l => some (l ++ [t])

/-- getTasksHandler, locked section (src/task.go lines 38-48): fold
`append` over the map's values starting from the nil slice and respond
200 with the result. -/
def getTasksHandler (s : RegistryState) : Nat × Option (List Task) :=
  (200, (TaskMap.values s.tasks).foldl goAppend none)

/-- encoding/json rendering of one task (field names from the struct
tags at src/task.go lines 13-18). -/
def encodeTask (t : Task) : String :=
  "\x7b\"id\":" ++ toString t.id ++
  ",\"title\":\"" ++ t.title ++
  "\",\"completed\":" ++ (if t.completed then "true" else "false") ++
  ",\"created_at\":" ++ toString t.createdAt ++ "\x7d"

/-- encoding/json rendering of the slice handed to `respondWithJSON`
(src/task.go lines 29-35): a nil slice encodes as the literal `null`,
a non-nil slice as a JSON array. -/
def encodeTaskList : Option (List Task) → String
  | none => "null"
  | some l => "[" ++ String.intercalate "," (l.map encodeTask) ++ "]"

/-- processTasksConcurrently (src/task.go lines 126-135): one
goroutine per input task; each sleeps, sets `completed = true` on its
own copy of the task and sends the copy on the channel.  The multiset
of messages that reach the channel is modelled as the list of
per-task results; delivery order is unspecified. -/
def processedMessages (tasks : List Task) : List Task :=
  tasks.map (fun t => { t with completed := true })

/-- The consumer goroutine's body (src/task.go lines 156-163): for
each task received from the channel, store it in the map under its own
id, unconditionally. -/
def applyCompletion (s : RegistryState) (t : Task) : RegistryState :=
  { s with tasks := TaskMap.insert s.tasks t.id t }

/-- The fixed startup batch (src/task.go lines 145-149) fed to the
completion pipeline; all three records carry ids 1, 2, 3 chosen by the
literal, with `time.Now()` at startup as timestamp. -/
def startupBatch (now : Nat) : List Task :=
  [{ id := 1, title := "Task 1", completed := false, createdAt := now },
   { id := 2, title := "Task 2", completed := false, createdAt := now },
   { id := 3, title := "Task 3", completed := false, createdAt := now }]

/-- One registry-mutating event: a create request, an update request,
a delete request (with its raw query string) or a completion-pipeline
upsert.  Each runs atomically under the registry lock, so any
interleaving of the concurrent callers is a sequence of these. -/
inductive Op where
  | create (req : Task) (now : Nat)
  | update (req : Task)
  | deleteQ (taskID : String)
  | upsert (t : Task)
deriving Repr

/-- The state after one operation. -/
def applyOp (s : RegistryState) : Op → RegistryState
  | .create req now => (createTask s req now).2
  | .update req => (updateTaskHandler s req).2.2
  | .deleteQ taskID => (deleteTaskHandler s taskID).2
  | .upsert t => applyCompletion s t

/-- The state after a sequence of operations. -/
def runOps (s : RegistryState) : List Op → RegistryState
  | [] => s
  | op :: ops => runOps (applyOp s op) ops

/-- The ids handed back by the create operations of a sequence, in
order. -/
def createdIds (s : RegistryState) : List Op → List Int
  | [] => []
  | .create req now :: ops =>
      (createTask s req now).1.id :: createdIds (applyOp s (.create req now)) ops
  | op :: ops => createdIds (applyOp s op) ops

/-- Run a batch of create requests; returns the records handed back,
in order, and the final state. -/
def runCreates (s : RegistryState) : List (Task × Nat) → List Task × RegistryState
  | [] => ([], s)
  | (req, now) :: rest =>
      let (t, s') := createTask s req now
      let (ts, s'') := runCreates s' rest
      (t :: ts, s'')

/-- A concrete task record used to exercise the handlers. -/
def sampleTask (i : Int) (title : String) : Task :=
  { id := i, title := title, completed := false, createdAt := 0 }

/-- A registry holding exactly one task under key `i`, with the
counter already past it. -/
def singletonState (i : Int) (t : Task) : RegistryState :=
  { tasks := [(i, t)], counter := i + 1 }

/-- The stored task used in the concrete delete and update scenarios. -/
def task5 : Task := sampleTask 5 "five"

/-- A registry holding exactly task 5. -/
def state5 : RegistryState := singletonState 5 task5

/-- An update request body addressing task 5 with fresh title and
completed values (and a caller-supplied created_at the handler must
ignore). -/
def updReq5 : Task := { id := 5, title := "renamed", completed := true, createdAt := 99 }

/-- A pipeline message: the first startup task after its goroutine set
completed to true. -/
def procTask : Task := { id := 1, title := "Task 1", completed := true, createdAt := 0 }

/-! Helper lemmas about the map model. -/

/-- Reading back the key just written yields the written value. -/
theorem TaskMap.lookup_insert_self (m : TaskMap) (k : Int) (v : Task) :
    TaskMap.lookup k (TaskMap.insert m k v) = some v := by
  induction m with
  | nil => simp [TaskMap.insert, TaskMap.lookup]
  | cons p rest ih =>
    obtain ⟨k', v'⟩ := p
    by_cases hk : k' = k
    · simp [TaskMap.insert, TaskMap.lookup, hk]
    · simp [TaskMap.insert, TaskMap.lookup, hk, ih]

/-- Writing one key leaves every other key's value unchanged. -/
theorem TaskMap.lookup_insert_ne (m : TaskMap) (k j : Int) (v : Task)
    (h : j ≠ k) : TaskMap.lookup j (TaskMap.insert m k v) = TaskMap.lookup j m := by
  induction m with
  | nil => simp [TaskMap.insert, TaskMap.lookup, Ne.symm h]
  | cons p rest ih =>
    obtain ⟨k', v'⟩ := p
    by_cases hk : k' = k
    · subst hk
      simp [TaskMap.insert, TaskMap.lookup, Ne.symm h]
    · simp [TaskMap.insert, TaskMap.lookup, hk, ih]

/-- The keys of a non-empty map. -/
theorem TaskMap.keys_cons (k' : Int) (v' : Task) (rest : TaskMap) :
    TaskMap.keys ((k', v') :: rest) = k' :: TaskMap.keys rest := rfl

/-- Writing a key that is not yet present appends the new entry. -/
theorem TaskMap.insert_of_not_mem (m : TaskMap) (k : Int) (v : Task)
    (h : k ∉ TaskMap.keys m) : TaskMap.insert m k v = m ++ [(k, v)] := by
  induction m with
  | nil => rfl
  | cons p rest ih =>
    obtain ⟨k', v'⟩ := p
    rw [TaskMap.keys_cons] at h
    simp only [List.mem_cons, not_or] at h
    simp [TaskMap.insert, Ne.symm h.1, ih h.2]

/-- The counter never decreases across any single operation. -/
theorem counter_le_applyOp (s : RegistryState) (op : Op) :
    s.counter ≤ (applyOp s op).counter := by
  cases op with
  | create req now => simp [applyOp, createTask]
  | update req =>
    simp only [applyOp, updateTaskHandler]
    cases TaskMap.lookup req.id s.tasks <;> simp
  | deleteQ q =>
    simp only [applyOp, deleteTaskHandler]
    by_cases hq : q = "" <;> simp [hq, sscanfNoOperands]
  | upsert t => simp [applyOp, applyCompletion]

/-- Every id a later create hands out is at least the current counter. -/
theorem createdIds_le (ops : List Op) :
    ∀ s : RegistryState, ∀ x ∈ createdIds s ops, s.counter ≤ x := by
  induction ops with
  | nil => intro s x hx; simp [createdIds] at hx
  | cons op rest ih =>
    intro s x hx
    cases op with
    | create req now =>
      simp only [createdIds, List.mem_cons] at hx
      rcases hx with rfl | hx
      · simp [createTask]
      · have hge := ih _ x hx
        have : (applyOp s (Op.create req now)).counter = s.counter + 1 := by
          simp [applyOp, createTask]
        omega
    | update req =>
      have hge := ih _ x (by simpa [createdIds] using hx)
      have hc := counter_le_applyOp s (Op.update req)
      omega
    | deleteQ q =>
      have hge := ih _ x (by simpa [createdIds] using hx)
      have hc := counter_le_applyOp s (Op.deleteQ q)
      omega
    | upsert t =>
      have hge := ih _ x (by simpa [createdIds] using hx)
      have hc := counter_le_applyOp s (Op.upsert t)
      omega

/-- The ids handed out by creates form a strictly increasing list. -/
theorem createdIds_pairwise (ops : List Op) :
    ∀ s : RegistryState, List.Pairwise (fun a b : Int => a < b) (createdIds s ops) := by
  induction ops with
  | nil => intro s; simp [createdIds]
  | cons op rest ih =>
    intro s
    cases op with
    | create req now =>
      simp only [createdIds]
      refine List.Pairwise.cons ?_ (ih _)
      intro b hb
      have hle := createdIds_le rest _ b hb
      have hco : (applyOp s (Op.create req now)).counter = s.counter + 1 := by
        simp [applyOp, createTask]
      have hid : (createTask s req now).1.id = s.counter := by simp [createTask]
      omega
    | update req => simpa [createdIds] using ih (applyOp s (Op.update req))
    | deleteQ q => simpa [createdIds] using ih (applyOp s (Op.deleteQ q))
    | upsert t => simpa [createdIds] using ih (applyOp s (Op.upsert t))

/-- Invariant of the registry: every stored key is below the counter,
so the next assigned id is fresh. -/
def keysBelow (s : RegistryState) : Prop :=
  ∀ k ∈ TaskMap.keys s.tasks, k < s.counter

/-- Under the freshness invariant, a batch of creates appends its
records to the snapshot, preserving the invariant. -/
theorem runCreates_values (reqs : List (Task × Nat)) :
    ∀ s : RegistryState, keysBelow s →
      TaskMap.values (runCreates s reqs).2.tasks =
        TaskMap.values s.tasks ++ (runCreates s reqs).1 ∧
      keysBelow (runCreates s reqs).2 := by
  induction reqs with
  | nil => intro s hs; simp [runCreates, hs]
  | cons rn rest ih =>
    intro s hs
    obtain ⟨req, now⟩ := rn
    have hfresh : s.counter ∉ TaskMap.keys s.tasks := by
      intro hmem
      exact absurd (hs _ hmem) (lt_irrefl _)
    have hins : TaskMap.insert s.tasks s.counter
        { req with id := s.counter, createdAt := now } =
        s.tasks ++ [(s.counter, { req with id := s.counter, createdAt := now })] :=
      TaskMap.insert_of_not_mem _ _ _ hfresh
    have hkb : keysBelow (createTask s req now).2 := by
      intro k hk
      simp only [createTask, hins, TaskMap.keys, List.map_append, List.mem_append,
        List.map_cons, List.map_nil, List.mem_singleton] at hk ⊢
      rcases hk with hk | hk
      · have := hs k hk
        omega
      · omega
    have hrec := ih (createTask s req now).2 hkb
    refine ⟨?_, ?_⟩
    · simp only [runCreates, createTask] at hrec ⊢
      rw [hrec.1]
      simp [TaskMap.values, createTask, hins]
    · simpa [runCreates, createTask] using hrec.2

/-- A batch of creates returns one record per request. -/
theorem runCreates_length (reqs : List (Task × Nat)) :
    ∀ s : RegistryState, (runCreates s reqs).1.length = reqs.length := by
  induction reqs with
  | nil => intro s; simp [runCreates]
  | cons rn rest ih =>
    intro s
    obtain ⟨req, now⟩ := rn
    simp [runCreates, ih]

/-- Folding Go append over a slice that is already non-nil just
concatenates. -/
theorem goAppend_foldl (l acc : List Task) :
    l.foldl goAppend (some acc) = some (acc ++ l) := by
  induction l generalizing acc with
  | nil => simp
  | cons t rest ih => simp [goAppend, ih]

/-- The slice built by getTasksHandler holds exactly the map's values
(the nil slice standing for the empty snapshot). -/
theorem getTasksHandler_body (s : RegistryState) :
    ((getTasksHandler s).2).getD [] = TaskMap.values s.tasks := by
  unfold getTasksHandler
  cases hv : TaskMap.values s.tasks with
  | nil => simp [hv]
  | cons t rest => simp [hv, goAppend, goAppend_foldl]

/-! The claims. -/

/-- C1: For every sequence of create operations (interleaved with any
updates, deletes and pipeline upserts), the ids returned by the
creates are strictly increasing and pairwise unique; an id once
assigned by the counter is never assigned again by a later create,
even if the task with that id has been deleted in between. -/
theorem C1_create_ids_strictly_increasing_never_reused
    (s : RegistryState) (ops : List Op) :
    List.Pairwise (fun a b : Int => a < b) (createdIds s ops) ∧
    (createdIds s ops).Nodup := by
  refine ⟨createdIds_pairwise ops s, ?_⟩
  exact List.Pairwise.imp (fun hab => ne_of_lt hab) (createdIds_pairwise ops s)

/-- C2: the claim says delete fails with NotFound exactly when the id
is absent and otherwise removes the record.  In the code the call
`fmt.Sscanf(taskID, "%d")` has no operand argument, so parsing always
errors and the handler answers 400 without touching the map: with task
5 stored, deleting id 5 returns 400 and leaves task 5 in place, and
deleting the absent id 5 from the empty registry returns 400, not
NotFound. -/
theorem C2_delete_never_notfound_never_removes :
    deleteTaskHandler state5 "5" = (400, state5) ∧
    TaskMap.lookup 5 (deleteTaskHandler state5 "5").2.tasks = some task5 ∧
    deleteTaskHandler initialState "5" = (400, initialState) :=
  ⟨rfl, rfl, rfl⟩

/-- C3: the claim says the delete endpoint answers 204 on success, 400
only for a missing or non-integer id, and 404 for a well-formed but
unknown id.  Because the Sscanf call always errors, the code answers
400 for every non-empty id string, including well-formed integers:
with the registry empty, id 7 gets 400 (the claim says 404); with task
7 stored, id 7 gets 400 (the claim says 204); only the missing-id case
agrees. -/
theorem C3_delete_status_always_400 :
    (deleteTaskHandler initialState "7").1 = 400 ∧
    (deleteTaskHandler (singletonState 7 (sampleTask 7 "seven")) "7").1 = 400 ∧
    (deleteTaskHandler initialState "").1 = 400 :=
  ⟨rfl, rfl, rfl⟩

/-- C4: update on an id absent from the registry answers 404 with no
body and returns the state unchanged: the same map and the same
counter. -/
theorem C4_update_absent_notfound_state_unchanged
    (s : RegistryState) (req : Task)
    (h : TaskMap.lookup req.id s.tasks = none) :
    updateTaskHandler s req = (404, none, s) := by
  simp [updateTaskHandler, h]

/-- Witness for C4 at a concrete input: updating id 1 in the empty
initial registry answers 404 and leaves the state alone. -/
theorem C4_witness :
    updateTaskHandler initialState (sampleTask 1 "x") = (404, none, initialState) :=
  C4_update_absent_notfound_state_unchanged initialState (sampleTask 1 "x") rfl

/-- C5: update on a present id overwrites only the stored record's
title and completed fields with the request's values, keeps its id and
created_at, stores it back under the same key, leaves the counter and
every other record unchanged, and returns the updated record (status
200). -/
theorem C5_update_present_overwrites_only_title_completed
    (s : RegistryState) (req task : Task)
    (h : TaskMap.lookup req.id s.tasks = some task) :
    updateTaskHandler s req =
      (200, some { task with title := req.title, completed := req.completed },
        { s with tasks := (TaskMap.insert s.tasks req.id
            { task with title := req.title, completed := req.completed }) }) ∧
    ({ task with title := req.title, completed := req.completed } : Task).id = task.id ∧
    ({ task with title := req.title, completed := req.completed } : Task).createdAt
      = task.createdAt ∧
    TaskMap.lookup req.id (updateTaskHandler s req).2.2.tasks =
      some { task with title := req.title, completed := req.completed } ∧
    (updateTaskHandler s req).2.2.counter = s.counter ∧
    ∀ k, k ≠ req.id →
      TaskMap.lookup k (updateTaskHandler s req).2.2.tasks = TaskMap.lookup k s.tasks := by
  have heq : updateTaskHandler s req =
      (200, some { task with title := req.title, completed := req.completed },
        { s with tasks := (TaskMap.insert s.tasks req.id
            { task with title := req.title, completed := req.completed }) }) := by
    simp [updateTaskHandler, h]
  refine ⟨heq, rfl, rfl, ?_, ?_, ?_⟩
  · rw [heq]
    exact TaskMap.lookup_insert_self ..
  · rw [heq]
  · intro k hk
    rw [heq]
    exact TaskMap.lookup_insert_ne _ _ _ _ hk

/-- Witness for C5 at a concrete input: renaming and completing task 5
in the one-task registry produces the expected response and leaves the
absent key 3 unchanged. -/
theorem C5_witness :
    updateTaskHandler state5 updReq5 =
      (200, some { task5 with title := updReq5.title, completed := updReq5.completed },
        { state5 with tasks := (TaskMap.insert state5.tasks updReq5.id
            { task5 with title := updReq5.title, completed := updReq5.completed }) }) ∧
    TaskMap.lookup 3 (updateTaskHandler state5 updReq5).2.2.tasks =
      TaskMap.lookup 3 state5.tasks :=
  ⟨(C5_update_present_overwrites_only_title_completed state5 updReq5 task5 rfl).1,
   (C5_update_present_overwrites_only_title_completed state5 updReq5 task5 rfl).2.2.2.2.2
     3 (by decide)⟩

/-- C6: create never fails after decoding: whatever id or created_at
the caller supplied in the request, the new record's id is the current
counter value, the counter is incremented, created_at is the current
time, title and completed come from the request, the record is stored
under its id, and exactly the stored record is returned. -/
theorem C6_create_assigns_counter_stores_and_returns
    (s : RegistryState) (req : Task) (now : Nat) :
    (createTask s req now).1.id = s.counter ∧
    (createTask s req now).2.counter = s.counter + 1 ∧
    (createTask s req now).1.createdAt = now ∧
    (createTask s req now).1.title = req.title ∧
    (createTask s req now).1.completed = req.completed ∧
    TaskMap.lookup s.counter (createTask s req now).2.tasks = some (createTask s req now).1 :=
  ⟨rfl, rfl, rfl, rfl, rfl, TaskMap.lookup_insert_self ..⟩

/-- C7: starting from the initial registry, after N creates and no
deletes the list snapshot holds exactly N records and its ids are
exactly the ids the creates handed back. -/
theorem C7_list_after_n_creates (reqs : List (Task × Nat)) :
    ((getTasksHandler (runCreates initialState reqs).2).2.getD []).length = reqs.length ∧
    ∀ i : Int,
      i ∈ ((getTasksHandler (runCreates initialState reqs).2).2.getD []).map Task.id ↔
        i ∈ (runCreates initialState reqs).1.map Task.id := by
  have hkb : keysBelow initialState := by
    intro k hk
    simp [initialState, TaskMap.keys] at hk
  have hv := (runCreates_values reqs initialState hkb).1
  have hbody := getTasksHandler_body (runCreates initialState reqs).2
  constructor
  · rw [hbody, hv]
    simp [initialState, TaskMap.values]
    exact runCreates_length reqs _
  · intro i
    rw [hbody, hv]
    simp [initialState, TaskMap.values]

/-- C8: every task of the pipeline's input yields exactly one channel
message, namely its own copy with completed set to true and id, title
and created_at untouched; the consumer applies each message as an
unconditional upsert keyed by its id, which stores the message under
its id and leaves every other key unchanged. -/
theorem C8_pipeline_messages_and_upsert
    (tasks : List Task) (s : RegistryState) (t : Task) :
    List.Forall₂
      (fun inp msg => msg.completed = true ∧ msg.id = inp.id ∧
        msg.title = inp.title ∧ msg.createdAt = inp.createdAt)
      tasks (processedMessages tasks) ∧
    TaskMap.lookup t.id (applyCompletion s t).tasks = some t ∧
    ∀ k, k ≠ t.id →
      TaskMap.lookup k (applyCompletion s t).tasks = TaskMap.lookup k s.tasks := by
  refine ⟨?_, TaskMap.lookup_insert_self .., fun k hk => TaskMap.lookup_insert_ne _ _ _ _ hk⟩
  induction tasks with
  | nil => exact List.Forall₂.nil
  | cons a rest ih => exact List.Forall₂.cons ⟨rfl, rfl, rfl, rfl⟩ ih

/-- Witness for C8 at a concrete input: upserting the completed copy
of startup task 1 into the one-task registry stores it under id 1 and
leaves the absent key 9 unchanged. -/
theorem C8_witness :
    TaskMap.lookup procTask.id (applyCompletion state5 procTask).tasks = some procTask ∧
    TaskMap.lookup 9 (applyCompletion state5 procTask).tasks =
      TaskMap.lookup 9 state5.tasks :=
  ⟨(C8_pipeline_messages_and_upsert [] state5 procTask).2.1,
   (C8_pipeline_messages_and_upsert [] state5 procTask).2.2 9 (by decide)⟩

/-- C9: the startup batch carries ids 1, 2, 3 while the counter starts
at 1, so the first three creates hand out those same ids 1, 2, 3; for
a task whose id equals the current counter, a pipeline upsert landing
after the create overwrites the created record with the pipeline's
copy, and a create landing after the upsert overwrites the pipeline's
copy with the created record. -/
theorem C9_startup_ids_collide_with_create_ids
    (now n1 n2 n3 : Nat) (r1 r2 r3 : Task)
    (s : RegistryState) (req t : Task) (h : t.id = s.counter) :
    (startupBatch now).map Task.id = [1, 2, 3] ∧
    initialState.counter = 1 ∧
    createdIds initialState [Op.create r1 n1, Op.create r2 n2, Op.create r3 n3] = [1, 2, 3] ∧
    TaskMap.lookup (createTask s req now).1.id
      (applyCompletion (createTask s req now).2 t).tasks = some t ∧
    TaskMap.lookup t.id (createTask (applyCompletion s t) req now).2.tasks =
      some (createTask (applyCompletion s t) req now).1 := by
  have hid : (createTask s req now).1.id = s.counter := rfl
  refine ⟨rfl, rfl, rfl, ?_, ?_⟩
  · rw [hid, ← h]
    exact TaskMap.lookup_insert_self ..
  · rw [h]
    exact TaskMap.lookup_insert_self ..

/-- Witness for C9 at a concrete input: with the initial registry
(counter 1) and the pipeline's completed copy of task 1, each write
order leaves the later writer's record under id 1. -/
theorem C9_witness :
    TaskMap.lookup (createTask initialState (sampleTask 0 "r") 0).1.id
      (applyCompletion (createTask initialState (sampleTask 0 "r") 0).2 procTask).tasks
      = some procTask ∧
    TaskMap.lookup procTask.id
      (createTask (applyCompletion initialState procTask) (sampleTask 0 "r") 0).2.tasks =
      some (createTask (applyCompletion initialState procTask) (sampleTask 0 "r") 0).1 :=
  ⟨(C9_startup_ids_collide_with_create_ids 0 0 0 0 (sampleTask 0 "r") (sampleTask 0 "r")
      (sampleTask 0 "r") initialState (sampleTask 0 "r") procTask rfl).2.2.2.1,
   (C9_startup_ids_collide_with_create_ids 0 0 0 0 (sampleTask 0 "r") (sampleTask 0 "r")
      (sampleTask 0 "r") initialState (sampleTask 0 "r") procTask rfl).2.2.2.2⟩

/-- C10: with the registry empty, the list handler builds the nil
slice, so the response is 200 with body the JSON literal null rather
than the empty array. -/
theorem C10_empty_registry_lists_null
    (s : RegistryState) (h : s.tasks = []) :
    getTasksHandler s = (200, none) ∧
    encodeTaskList (getTasksHandler s).2 = "null" ∧
    encodeTaskList (getTasksHandler s).2 ≠ "[]" := by
  have hg : getTasksHandler s = (200, none) := by
    simp [getTasksHandler, h, TaskMap.values]
  refine ⟨hg, ?_, ?_⟩
  · rw [hg]
    rfl
  · rw [hg]
    decide

/-- Witness for C10 at a concrete input: listing the initial (empty)
registry answers 200 with body null. -/
theorem C10_witness :
    getTasksHandler initialState = (200, none) ∧
    encodeTaskList (getTasksHandler initialState).2 = "null" ∧
    encodeTaskList (getTasksHandler initialState).2 ≠ "[]" :=
  C10_empty_registry_lists_null initialState rfl

end TaskService
